import Mathlib

/-!
Verification of the GulpIO adapter and transform layer.

The development shallowly embeds the two source modules:

* `gulpio/loader.py`  — clip transform pipeline (`ComposeVideo`,
  `RandHorFlipVideo`, `RandomCropVideo`, `Scale`, ...);
* `gulpio/adapters.py` — dataset adapters (`Custom20BNJsonAdapter`,
  `OpenSource20BNAdapter`, `ImageFolderAdapter`, ...), their label-index
  construction and their generator-based `iter_data` iteration.

Frames are modelled as row-major matrices of pixel values; file-system and
external-library collaborators (frame acquisition, `glob`, `cv2.resize`,
manifest readers) are passed in as explicit function parameters, since their
code lives outside the two embedded modules.
-/

/-- Frames (numpy 2-D arrays) are row-major matrices of pixel values. -/
abbrev Image : Type := List (List Nat)

/-- Row count of a frame: `img.shape[0]`. -/
def imgHeight (img : Image) : Nat := img.length

/-- Column count of a frame: `img.shape[1]`. -/
def imgWidth (img : Image) : Nat := (img.headD []).length

/-- Model of `cv2.flip` on a 2-D array: flip code 0 mirrors around the
horizontal axis (reverses the row order, an up-down flip); any other positive
code (the sources use 1) mirrors around the vertical axis (reverses every row,
a left-right flip). -/
def cv2flip (flipCode : Nat) (img : Image) : Image :=
  if flipCode = 0 then img.reverse else img.map List.reverse

/-- Python string comparison: lexicographic on the code-point sequence.
`String.data` exposes the character list, compared with the lexicographic
order on `List Char`. -/
def pyStrLe (a b : String) : Prop := a.data ≤ b.data

instance : DecidableRel pyStrLe :=
  fun a b => inferInstanceAs (Decidable (a.data ≤ b.data))

instance : IsTotal String pyStrLe := ⟨fun a b => le_total a.data b.data⟩

instance : IsTrans String pyStrLe := ⟨fun _ _ _ h1 h2 => le_trans h1 h2⟩

instance : IsAntisymm String pyStrLe :=
  ⟨fun a b h1 h2 => by
    cases a; cases b; exact congrArg String.mk (le_antisymm h1 h2)⟩

/-- Shared body of `create_label2idx_dict` (`adapters.py` lines 83-89, 145-151,
213-219, 284-290): `labels = sorted(set(...))` collects the distinct labels in
ascending string order, and the enumeration loop assigns each label its
position in that order. The resulting dict is modelled as an association list
in insertion order. -/
def create_label2idx_dict (labels : List String) : List (String × Nat) :=
  let sortedLabels := List.insertionSort pyStrLe labels.dedup
  sortedLabels.enum.map (fun p => (p.2, p.1))

/-- Keys of `create_label2idx_dict` are the sorted distinct labels. -/
theorem create_label2idx_dict_map_fst (labels : List String) :
    (create_label2idx_dict labels).map Prod.fst =
      List.insertionSort pyStrLe labels.dedup := by
  simp only [create_label2idx_dict, List.map_map]
  exact List.enum_map_snd _

/-- Values of `create_label2idx_dict` are the positions `0, 1, ...`. -/
theorem create_label2idx_dict_map_snd (labels : List String) :
    (create_label2idx_dict labels).map Prod.snd =
      List.range (List.insertionSort pyStrLe labels.dedup).length := by
  simp only [create_label2idx_dict, List.map_map]
  exact List.enum_map_fst _

/-- C2: the label index built by `create_label2idx_dict` has as keys exactly
the distinct labels, in ascending lexicographic order, with values the
contiguous range `[0, K)` for `K` the number of distinct labels; and any two
entry lists with the same set of distinct labels (any order, any duplication)
produce identical mappings. -/
theorem create_label2idx_dict_ok (labels : List String) :
    ((create_label2idx_dict labels).map Prod.fst).Perm labels.dedup ∧
    ((create_label2idx_dict labels).map Prod.fst).Sorted pyStrLe ∧
    (create_label2idx_dict labels).map Prod.snd = List.range labels.dedup.length ∧
    ∀ labels2 : List String, labels.dedup.Perm labels2.dedup →
      create_label2idx_dict labels = create_label2idx_dict labels2 := by
  refine ⟨?_, ?_, ?_, ?_⟩
  · rw [create_label2idx_dict_map_fst]
    exact List.perm_insertionSort _ _
  · rw [create_label2idx_dict_map_fst]
    exact List.sorted_insertionSort _ _
  · rw [create_label2idx_dict_map_snd,
      (List.perm_insertionSort pyStrLe labels.dedup).length_eq]
  · intro labels2 hperm
    have hsort : List.insertionSort pyStrLe labels.dedup =
        List.insertionSort pyStrLe labels2.dedup :=
      List.eq_of_perm_of_sorted
        ((List.perm_insertionSort _ _).trans
          (hperm.trans (List.perm_insertionSort _ _).symm))
        (List.sorted_insertionSort _ _) (List.sorted_insertionSort _ _)
    simp only [create_label2idx_dict, hsort]

/-- Concrete instance of `create_label2idx_dict_ok`: two entry lists with the
same distinct labels in different orders and multiplicities yield the same
mapping. -/
theorem create_label2idx_dict_ok_witness :
    (["dog", "cat", "dog"].dedup).Perm (["cat", "dog", "cat"].dedup) ∧
    create_label2idx_dict ["dog", "cat", "dog"] =
      create_label2idx_dict ["cat", "dog", "cat"] :=
  ⟨by decide,
   (create_label2idx_dict_ok ["dog", "cat", "dog"]).2.2.2
     ["cat", "dog", "cat"] (by decide)⟩

/-- Result of numpy basic integer indexing into a 2-D array: the whole matrix
(no indices), one row (one index), or one pixel (two indices). -/
inductive NDSlice where
  | mat (m : Image)
  | row (r : List Nat)
  | px (p : Nat)
deriving DecidableEq, Repr

/-- Numpy basic integer indexing of a 2-D array `img[i0, i1, ...]`: up to two
integer indices select a row or a pixel (out-of-range gives `IndexError`);
three or more indices always raise `IndexError: too many indices`. -/
def npIndexMat (img : Image) (idxs : List Nat) : Option NDSlice :=
  match idxs with
  | [] => some (.mat img)
  | [i] => (img.get? i).map .row
  | [i, j] => (img.get? i).bind (fun r => (r.get? j).map .px)
  | _ => none

/-- Model of `cv2.copyMakeBorder(img, p, p, p, p, cv2.BORDER_CONSTANT, value=0)`:
pad all four borders by `p` pixels of constant 0. -/
def copyMakeBorderConst (p : Nat) (img : Image) : Image :=
  let padRow := List.replicate (imgWidth img + 2 * p) 0
  List.replicate p padRow ++
    img.map (fun r => List.replicate p 0 ++ r ++ List.replicate p 0) ++
    List.replicate p padRow

/-- Body of `RandomCropVideo.__call__` (`loader.py` lines 154-174), with the
sampled crop origin `(x1, y1)` (drawn by `random.randint(0, w - tw)` and
`random.randint(0, h - th)` once per clip) passed explicitly. Each frame is
optionally padded and then line 172 computes
`img_crop = img[y1, x1, y1 + th, x1 + tw]` — a four-integer tuple index into a
2-D frame, modelled by `npIndexMat`; the `none` case is the raised
`IndexError`, which aborts the call at the first frame. -/
def randomCropVideoCall (th tw padding x1 y1 : Nat) (imgs : List Image) :
    Except String (List NDSlice) :=
  imgs.mapM (fun img =>
    let padded := if 0 < padding then copyMakeBorderConst padding img else img
    match npIndexMat padded [y1, x1, y1 + th, x1 + tw] with
    | some v => Except.ok v
    | none => Except.error "IndexError: too many indices for array")

/-- The region crop the claim describes: rows `y1` to `y1 + th`, columns `x1`
to `x1 + tw`. Stated from the claim for comparison with the source. -/
def cropRegion (th tw x1 y1 : Nat) (img : Image) : Image :=
  ((img.drop y1).take th).map (fun r => (r.drop x1).take tw)

/-- C1: evaluating `RandomCropVideo` on a clip whose first frame is 4×4 with
crop size 2×2 and sampled origin (0, 0) raises `IndexError` (line 172 indexes
a 2-D frame with a four-integer tuple) instead of returning the clip of 2×2
regions that the claim describes. -/
theorem randomCropVideoCall_index_error :
    randomCropVideoCall 2 2 0 0 0
        [[[1, 2, 3, 4], [5, 6, 7, 8], [9, 10, 11, 12], [13, 14, 15, 16]]] =
      Except.error "IndexError: too many indices for array" ∧
    cropRegion 2 2 0 0
        [[1, 2, 3, 4], [5, 6, 7, 8], [9, 10, 11, 12], [13, 14, 15, 16]] =
      [[1, 2], [5, 6]] := by
  constructor
  · rfl
  · rfl

/-- Body of `ComposeVideo.__call__` (`loader.py` lines 32-39): every per-frame
transform is applied to every frame (lines 33-35), then every per-clip
transform to the whole sequence (lines 36-37); line 38 then executes
`imgs[i] = np.unsqueeze(img, 0)`, whose right-hand side raises at the
attribute lookup (`numpy` has no `unsqueeze`; the index `i` is unbound as
well), so the call raises instead of returning the transformed sequence. -/
def composeVideoCall (img_transforms : List (Image → Image))
    (video_transforms : List (List Image → List Image))
    (imgs : List Image) : Except String (List Image) :=
  let perFrame := img_transforms.foldl (fun cur t => cur.map t) imgs
  let perClip := video_transforms.foldl (fun cur t => t cur) perFrame
  let _ := perClip
  Except.error "AttributeError: module numpy has no attribute unsqueeze"

/-- C3: calling the pipeline never returns the transformed frame sequence —
line 38 of `loader.py` raises on every call, for every choice of per-frame
transforms, per-clip transforms and input clip. -/
theorem composeVideoCall_always_raises (img_transforms : List (Image → Image))
    (video_transforms : List (List Image → List Image)) (imgs : List Image) :
    composeVideoCall img_transforms video_transforms imgs =
      Except.error "AttributeError: module numpy has no attribute unsqueeze" := rfl

/-- First class named `RandHorFlipVideo` (`loader.py` lines 42-50): one draw of
`random.random()` (passed here as `r`) decides the whole clip; if `r < 0.5`
every frame is `cv2.flip(img, 1)` (left-right). -/
def randHorFlipVideoDef1 (r : ℚ) (imgs : List Image) : List Image :=
  if r < 1 / 2 then imgs.map (cv2flip 1) else imgs

/-- Second class named `RandHorFlipVideo` (`loader.py` lines 53-61, shadowing
the first, so this is what the module name `RandHorFlipVideo` denotes): same
single draw, but each frame is `cv2.flip(img, 0)` (up-down). -/
def randHorFlipVideoDef2 (r : ℚ) (imgs : List Image) : List Image :=
  if r < 1 / 2 then imgs.map (cv2flip 0) else imgs

/-- C4: the effective `RandHorFlipVideo` (the second, shadowing definition)
with a flip-branch draw maps every frame of the clip to its up-down mirror —
`[[1,2],[3,4]]` becomes `[[3,4],[1,2]]`, not the left-right mirror
`[[2,1],[4,3]]` the claim describes — and with a non-flip draw it returns the
clip unchanged. -/
theorem randHorFlipVideoDef2_flips_vertically :
    randHorFlipVideoDef2 0 [[[1, 2], [3, 4]], [[5, 6], [7, 8]]] =
      [[[3, 4], [1, 2]], [[7, 8], [5, 6]]] ∧
    randHorFlipVideoDef2 0 [[[1, 2], [3, 4]], [[5, 6], [7, 8]]] ≠
      [[[2, 1], [4, 3]], [[6, 5], [8, 7]]] ∧
    randHorFlipVideoDef2 (2 / 3) [[[1, 2], [3, 4]], [[5, 6], [7, 8]]] =
      [[[1, 2], [3, 4]], [[5, 6], [7, 8]]] := by
  have h0 : ((0 : ℚ) < 1 / 2) := by norm_num
  have h23 : ¬ ((2 / 3 : ℚ) < 1 / 2) := by norm_num
  refine ⟨?_, ?_, ?_⟩
  · rw [randHorFlipVideoDef2, if_pos h0]; rfl
  · rw [randHorFlipVideoDef2, if_pos h0]; decide
  · rw [randHorFlipVideoDef2, if_neg h23]

/-- One element of an adapter `all_meta` list (`get_meta`, `adapters.py`
lines 77-81, 139-143): id, label, and the label-index lookup. The lookup is
kept as an `Option` since a Python dict access raises `KeyError` on a missing
key. -/
structure MetaEntry where
  id : String
  label : String
  idx : Option Nat
deriving DecidableEq, Repr

/-- The record yielded per entry (`adapters.py` lines 108-110, 167-169):
`{meta, frames, id: meta.id}`. -/
structure Record where
  meta : MetaEntry
  frames : List Image
  id : String
deriving DecidableEq, Repr

/-- Line 108-110 / 167-169: wrap one meta into the yielded record, with frame
acquisition (video bursting / folder lookup, code outside the embedded
modules) abstracted as `acquire`. -/
def mkRecord (acquire : MetaEntry → List Image) (m : MetaEntry) : Record :=
  { meta := m, frames := acquire m, id := m.id }

/-- Observable events of one `iter_data` generator run: yielding a record, or
calling `write_label2idx_dict` (the label-index persistence). -/
inductive IterEv where
  | yieldRec (r : Record)
  | writeLabel2idx
deriving DecidableEq, Repr

/-- Python slice `l[start:stop]` for non-negative bounds. -/
def sliceList {α : Type} (start stop : Nat) (l : List α) : List α :=
  (l.drop start).take (stop - start)

/-- Full event sequence of one `iter_data(slice_element)` run (`adapters.py`
lines 99-113 and 161-172): the `for` loop yields one record per meta in
`all_meta[slice_element]`, and the loop `else` clause — executed exactly when
the loop finishes without `break` — calls `write_label2idx_dict()`. The
default `slice_element` is `slice(0, len(self))`. -/
def iter_data_trace (acquire : MetaEntry → List Image)
    (all_meta : List MetaEntry) (start stop : Nat) : List IterEv :=
  ((sliceList start stop all_meta).map
    (fun m => IterEv.yieldRec (mkRecord acquire m))) ++ [IterEv.writeLabel2idx]

/-- Events actually executed after the consumer performs `pulls` pull
requests on the generator: each pull runs the body up to (and including) the
next yield, so `pulls` pulls within range execute exactly the first `pulls`
yields; the pull after the final yield runs the `for`-`else` clause (the
write) before `StopIteration`. A consumer that stops pulling leaves the
generator suspended at its last yield — closing it raises `GeneratorExit`
there, which propagates without running the `else` clause. -/
def iter_data_executed (acquire : MetaEntry → List Image)
    (all_meta : List MetaEntry) (start stop pulls : Nat) : List IterEv :=
  let n := (sliceList start stop all_meta).length
  (iter_data_trace acquire all_meta start stop).take
    (if pulls ≤ n then pulls else n + 1)

/-- C5: if the consumer aborts a default-range `iter_data` iteration early
(strictly fewer pulls than entries), the label-index persistence step is never
executed during that iteration. -/
theorem iter_data_early_abort_no_write (acquire : MetaEntry → List Image)
    (all_meta : List MetaEntry) (pulls : Nat) (h : pulls < all_meta.length) :
    IterEv.writeLabel2idx ∉ iter_data_executed acquire all_meta 0 all_meta.length pulls := by
  have hslice : sliceList 0 all_meta.length all_meta = all_meta := by
    simp [sliceList]
  have hle : pulls ≤ (sliceList 0 all_meta.length all_meta).length := by
    rw [hslice]; exact le_of_lt h
  intro hmem
  rw [iter_data_executed] at hmem
  simp only [hle, if_pos] at hmem
  rw [iter_data_trace,
    List.take_append_of_le_length (by simpa using hle)] at hmem
  have hmem2 := List.take_subset _ _ hmem
  rcases List.mem_map.mp hmem2 with ⟨m, _, habs⟩
  exact IterEv.noConfusion habs

/-- Concrete instance of `iter_data_early_abort_no_write`: pulling one of two
records executes no write. -/
theorem iter_data_early_abort_no_write_witness :
    (1 < ([⟨"v1", "cat", some 0⟩, ⟨"v2", "dog", some 1⟩] : List MetaEntry).length) ∧
    IterEv.writeLabel2idx ∉ iter_data_executed (fun _ => [])
      [⟨"v1", "cat", some 0⟩, ⟨"v2", "dog", some 1⟩] 0 2 1 :=
  ⟨by decide,
   iter_data_early_abort_no_write (fun _ => [])
     [⟨"v1", "cat", some 0⟩, ⟨"v2", "dog", some 1⟩] 1 (by decide)⟩

/-- C6 counterexample: an adapter with two entries, iterated over the strict
sub-range `slice(0, 1)` and pulled to exhaustion, does execute the
label-index write — the `for`-`else` clause fires at the natural exhaustion of
every run, not only after the full stream of all entries. -/
theorem iter_data_subrange_writes :
    IterEv.writeLabel2idx ∈ iter_data_executed (fun _ => [])
      [⟨"v1", "cat", some 0⟩, ⟨"v2", "dog", some 1⟩] 0 1 2 := by decide

/-- C6 (amended): every `iter_data` run — over any slice of the entries —
executes the label-index write exactly once, as its final event, at the
natural exhaustion of that run; a run that is aborted before exhausting its
own (sliced) sequence executes no write. Re-running `iter_data` therefore
writes once per exhausted run, not once per adapter lifetime. -/
theorem iter_data_write_once_per_run (acquire : MetaEntry → List Image)
    (all_meta : List MetaEntry) (start stop pulls : Nat) :
    (iter_data_trace acquire all_meta start stop).count IterEv.writeLabel2idx = 1 ∧
    (iter_data_trace acquire all_meta start stop).getLast? = some IterEv.writeLabel2idx ∧
    (pulls ≤ (sliceList start stop all_meta).length →
      IterEv.writeLabel2idx ∉ iter_data_executed acquire all_meta start stop pulls) := by
  refine ⟨?_, ?_, ?_⟩
  · rw [iter_data_trace, List.count_append]
    have hzero : ((sliceList start stop all_meta).map
        (fun m => IterEv.yieldRec (mkRecord acquire m))).count IterEv.writeLabel2idx = 0 := by
      refine List.count_eq_zero.mpr ?_
      intro hmem
      rcases List.mem_map.mp hmem with ⟨m, _, habs⟩
      exact IterEv.noConfusion habs
    rw [hzero]
    rfl
  · exact List.getLast?_concat _
  · intro hle hmem
    rw [iter_data_executed] at hmem
    simp only [hle, if_pos] at hmem
    rw [iter_data_trace,
      List.take_append_of_le_length (by simpa using hle)] at hmem
    have hmem2 := List.take_subset _ _ hmem
    rcases List.mem_map.mp hmem2 with ⟨m, _, habs⟩
    exact IterEv.noConfusion habs

/-- Concrete instance of `iter_data_write_once_per_run` at a one-entry slice
of a two-entry adapter with one pull. -/
theorem iter_data_write_once_per_run_witness :
    (1 ≤ (sliceList 0 1 ([⟨"v1", "cat", some 0⟩, ⟨"v2", "dog", some 1⟩] : List MetaEntry)).length) ∧
    IterEv.writeLabel2idx ∉ iter_data_executed (fun _ => [])
      [⟨"v1", "cat", some 0⟩, ⟨"v2", "dog", some 1⟩] 0 1 1 :=
  ⟨by decide,
   (iter_data_write_once_per_run (fun _ => [])
     [⟨"v1", "cat", some 0⟩, ⟨"v2", "dog", some 1⟩] 0 1 1).2.2 (by decide)⟩

/-- Body of `Scale.__call__` for an integer target (`loader.py` lines 241-258).
`cv2.resize` is an external collaborator, abstracted as `resize`; its `Bool`
argument marks which of the two call sites is taken (`true` for the shrinking
branch, whose call passes `cv2.INTER_AREA`, `false` for the default call).
The guard of line 243 returns the image unchanged when its shorter side
already equals the target; otherwise the shorter side is mapped to `size` and
the longer side to `int(size * long / short)` (floor division on
non-negative values). -/
def scaleCall (resize : Bool → Image → Nat → Nat → Image) (size : Nat)
    (img : Image) : Image :=
  if (imgWidth img ≤ imgHeight img ∧ imgWidth img = size) ∨
      (imgHeight img ≤ imgWidth img ∧ imgHeight img = size) then img
  else if imgWidth img < imgHeight img then
    (if size < imgWidth img then
      resize true img size (size * imgHeight img / imgWidth img)
    else
      resize false img size (size * imgHeight img / imgWidth img))
  else
    (if size < imgHeight img then
      resize true img (size * imgWidth img / imgHeight img) size
    else
      resize false img (size * imgWidth img / imgHeight img) size)

/-- When the line-243 guard holds, `Scale` returns its input unchanged. -/
theorem scaleCall_of_guard (resize : Bool → Image → Nat → Nat → Image)
    (size : Nat) (img : Image)
    (h : (imgWidth img ≤ imgHeight img ∧ imgWidth img = size) ∨
      (imgHeight img ≤ imgWidth img ∧ imgHeight img = size)) :
    scaleCall resize size img = img := by
  simp only [scaleCall]
  rw [if_pos h]

/-- C7: rescaling by shorter edge with an integer target is idempotent — for
any non-empty image, applying `Scale(size)` twice equals applying it once
(the first application makes the shorter side equal to `size`, so the second
hits the line-243 guard); and an image whose shorter side already equals
`size` is returned unchanged. `resize` is only assumed to produce an image of
the requested positive shape, as `cv2.resize` does. -/
theorem scale_shorter_edge_idempotent (resize : Bool → Image → Nat → Nat → Image)
    (hres : ∀ b img ow oh, 0 < ow → 0 < oh →
      imgHeight (resize b img ow oh) = oh ∧ imgWidth (resize b img ow oh) = ow)
    (size : Nat) (hs : 0 < size) (img : Image)
    (hh : 0 < imgHeight img) (hw : 0 < imgWidth img) :
    scaleCall resize size (scaleCall resize size img) = scaleCall resize size img ∧
    (min (imgWidth img) (imgHeight img) = size → scaleCall resize size img = img) := by
  constructor
  · by_cases hguard : (imgWidth img ≤ imgHeight img ∧ imgWidth img = size) ∨
        (imgHeight img ≤ imgWidth img ∧ imgHeight img = size)
    · rw [scaleCall_of_guard resize size img hguard]
      exact scaleCall_of_guard resize size img hguard
    · by_cases hwlt : imgWidth img < imgHeight img
      · have hoh : size ≤ size * imgHeight img / imgWidth img := by
          rw [Nat.le_div_iff_mul_le hw]
          exact Nat.mul_le_mul (le_refl size) (le_of_lt hwlt)
        have hstep : scaleCall resize size img =
            (if size < imgWidth img then
              resize true img size (size * imgHeight img / imgWidth img)
            else
              resize false img size (size * imgHeight img / imgWidth img)) := by
          simp only [scaleCall]
          rw [if_neg hguard, if_pos hwlt]
        rw [hstep]
        by_cases hsz : size < imgWidth img
        · rw [if_pos hsz]
          obtain ⟨hH, hW⟩ := hres true img size (size * imgHeight img / imgWidth img)
            hs (lt_of_lt_of_le hs hoh)
          exact scaleCall_of_guard resize size _ (Or.inl ⟨by rw [hW, hH]; exact hoh, hW⟩)
        · rw [if_neg hsz]
          obtain ⟨hH, hW⟩ := hres false img size (size * imgHeight img / imgWidth img)
            hs (lt_of_lt_of_le hs hoh)
          exact scaleCall_of_guard resize size _ (Or.inl ⟨by rw [hW, hH]; exact hoh, hW⟩)
      · have hwge : imgHeight img ≤ imgWidth img := le_of_not_lt hwlt
        have how : size ≤ size * imgWidth img / imgHeight img := by
          rw [Nat.le_div_iff_mul_le hh]
          exact Nat.mul_le_mul (le_refl size) hwge
        have hstep : scaleCall resize size img =
            (if size < imgHeight img then
              resize true img (size * imgWidth img / imgHeight img) size
            else
              resize false img (size * imgWidth img / imgHeight img) size) := by
          simp only [scaleCall]
          rw [if_neg hguard, if_neg hwlt]
        rw [hstep]
        by_cases hsz : size < imgHeight img
        · rw [if_pos hsz]
          obtain ⟨hH, hW⟩ := hres true img (size * imgWidth img / imgHeight img) size
            (lt_of_lt_of_le hs how) hs
          exact scaleCall_of_guard resize size _ (Or.inr ⟨by rw [hW, hH]; exact how, hH⟩)
        · rw [if_neg hsz]
          obtain ⟨hH, hW⟩ := hres false img (size * imgWidth img / imgHeight img) size
            (lt_of_lt_of_le hs how) hs
          exact scaleCall_of_guard resize size _ (Or.inr ⟨by rw [hW, hH]; exact how, hH⟩)
  · intro hmin
    apply scaleCall_of_guard
    omega

/-- Shape-respecting stand-in for `cv2.resize` used to instantiate the
idempotence theorem on a concrete image. -/
def replResize (b : Bool) (img : Image) (ow oh : Nat) : Image :=
  List.replicate oh (List.replicate ow 0)

/-- Concrete instance of `scale_shorter_edge_idempotent`: a 3×2 image scaled
to shorter edge 3, twice. -/
theorem scale_shorter_edge_idempotent_witness :
    (0 < 3) ∧ 0 < imgHeight [[1, 2], [3, 4], [5, 6]] ∧
    0 < imgWidth [[1, 2], [3, 4], [5, 6]] ∧
    scaleCall replResize 3 (scaleCall replResize 3 [[1, 2], [3, 4], [5, 6]]) =
      scaleCall replResize 3 [[1, 2], [3, 4], [5, 6]] :=
  ⟨by decide, by decide, by decide,
   (scale_shorter_edge_idempotent replResize
     (fun b i ow oh how hoh => ⟨by simp [replResize, imgHeight], by
       cases oh with
       | zero => exact absurd hoh (Nat.lt_irrefl 0)
       | succ n => simp [replResize, imgWidth, List.replicate_succ]⟩)
     3 (by decide) [[1, 2], [3, 4], [5, 6]] (by decide) (by decide)).1⟩

/-- Split a character list at every occurrence of `c`, keeping empty pieces —
the behaviour of Python `str.split(sep)` for a one-character separator. -/
def splitOnChar (c : Char) : List Char → List (List Char)
  | [] => [[]]
  | x :: xs =>
    match splitOnChar c xs with
    | [] => [[]]
    | y :: ys => if x = c then [] :: y :: ys else (x :: y) :: ys

/-- Newline character. -/
def nlChar : Char := Char.ofNat 10

/-- Semicolon character. -/
def semiChar : Char := Char.ofNat 59

/-- One row of the semicolon CSV manifest: `{'id': row[0], 'label': row[1]}`
(`adapters.py` line 136). -/
structure CsvEntry where
  id : String
  label : String
deriving DecidableEq, Repr

/-- `OpenSource20BNAdapter.read_csv` (`adapters.py` lines 131-137) on the
manifest text: `csv.reader(f, delimiter=';')` yields one row per
newline-terminated line (no row for the text after a trailing newline), each
row split at semicolons; columns 0 and 1 become id and label. -/
def read_csv (content : String) : List CsvEntry :=
  ((splitOnChar nlChar content.data).filter (fun r => r ≠ [])).map (fun row =>
    let cols := splitOnChar semiChar row
    { id := String.mk (cols.headD []), label := String.mk ((cols.drop 1).headD []) })

/-- `OpenSource20BNAdapter.get_meta` (`adapters.py` lines 139-143): each entry
enriched with the label-index lookup of its label. -/
def openSource_get_meta (label2idx : List (String × Nat))
    (data : List CsvEntry) : List MetaEntry :=
  data.map (fun e => { id := e.id, label := e.label, idx := List.lookup e.label label2idx })

/-- `OpenSource20BNAdapter.__init__` with `shuffle=False` (`adapters.py`
lines 118-129): parse the manifest, build the label index eagerly, compute
`all_meta` in manifest order (the `random.shuffle` branch is not taken). -/
def openSource20BNAdapter_init (csv_content : String) :
    List CsvEntry × List (String × Nat) × List MetaEntry :=
  let data := read_csv csv_content
  let label2idx := create_label2idx_dict (data.map CsvEntry.label)
  (data, label2idx, openSource_get_meta label2idx data)

/-- C8: on the manifest `"v1;cat\nv2;dog\n"` with shuffling disabled, the
label index is `{cat: 0, dog: 1}`, `all_meta` lists the two rows in manifest
order with indices 0 and 1, and a full `iter_data` run yields exactly one
record per row, in manifest order, each record's `meta.idx` being the label
index of that row's label. -/
theorem openSource_csv_example :
    (openSource20BNAdapter_init "v1;cat\nv2;dog\n").2.1 = [("cat", 0), ("dog", 1)] ∧
    (openSource20BNAdapter_init "v1;cat\nv2;dog\n").2.2 =
      [⟨"v1", "cat", some 0⟩, ⟨"v2", "dog", some 1⟩] ∧
    iter_data_trace (fun _ => []) (openSource20BNAdapter_init "v1;cat\nv2;dog\n").2.2
        0 (openSource20BNAdapter_init "v1;cat\nv2;dog\n").2.2.length =
      [IterEv.yieldRec ⟨⟨"v1", "cat", some 0⟩, [], "v1"⟩,
       IterEv.yieldRec ⟨⟨"v2", "dog", some 1⟩, [], "v2"⟩,
       IterEv.writeLabel2idx] := by decide

/-- Python `s.endswith(suffix)`. -/
def strEndsWith (s suffix : String) : Bool := List.isSuffixOf suffix.data s.data

/-- Which manifest reader `Custom20BNJsonAdapter.__init__` selects:
`read_gz_json` for `.json.gz`, `read_json` for `.json`. -/
inductive JsonReaderKind where
  | plainJson
  | gzipJson
deriving DecidableEq, Repr

/-- One element of the JSON manifest: `{'id': ..., 'template': ...}`. -/
structure JsonEntry where
  id : String
  template : String
deriving DecidableEq, Repr

/-- `Custom20BNJsonAdapter.get_meta` (`adapters.py` lines 77-81). -/
def custom20BNJson_get_meta (label2idx : List (String × Nat))
    (data : List JsonEntry) : List MetaEntry :=
  data.map (fun e => { id := e.id, label := e.template, idx := List.lookup e.template label2idx })

/-- Adapter state built by a successful `Custom20BNJsonAdapter.__init__`
(`shuffle=False` path): parsed data, eagerly built label index, meta list. -/
structure JsonAdapterState where
  data : List JsonEntry
  label2idx : List (String × Nat)
  all_meta : List MetaEntry
deriving DecidableEq, Repr

/-- `Custom20BNJsonAdapter.__init__` (`adapters.py` lines 46-65): the manifest
file name is checked first — `.json.gz` selects the gzip reader, otherwise
`.json` selects the plain reader, otherwise `RuntimeError` is raised before
the label index or the meta list is computed. The readers themselves (file
system access) are abstracted as `readFile`. -/
def custom20BNJsonAdapter_init (readFile : JsonReaderKind → List JsonEntry)
    (json_file : String) : Except String (JsonReaderKind × JsonAdapterState) :=
  if strEndsWith json_file ".json.gz" then
    let data := readFile .gzipJson
    let label2idx := create_label2idx_dict (data.map JsonEntry.template)
    Except.ok (.gzipJson,
      { data := data, label2idx := label2idx,
        all_meta := custom20BNJson_get_meta label2idx data })
  else if strEndsWith json_file ".json" then
    let data := readFile .plainJson
    let label2idx := create_label2idx_dict (data.map JsonEntry.template)
    Except.ok (.plainJson,
      { data := data, label2idx := label2idx,
        all_meta := custom20BNJson_get_meta label2idx data })
  else
    Except.error "Wrong data file format (.json.gz or .json)"

/-- C9: a manifest name ending neither in `.json` nor `.json.gz` makes the
constructor fail fast with the unsupported-format error, producing no adapter
state at all; a name ending in `.json.gz` selects the gzip reader and one
ending in `.json` (but not `.json.gz`) the plain reader. -/
theorem custom20BNJsonAdapter_init_extension_check
    (readFile : JsonReaderKind → List JsonEntry) (json_file : String) :
    (strEndsWith json_file ".json" = false → strEndsWith json_file ".json.gz" = false →
      custom20BNJsonAdapter_init readFile json_file =
        Except.error "Wrong data file format (.json.gz or .json)") ∧
    (strEndsWith json_file ".json.gz" = true →
      ∃ st, custom20BNJsonAdapter_init readFile json_file =
        Except.ok (JsonReaderKind.gzipJson, st)) ∧
    (strEndsWith json_file ".json.gz" = false → strEndsWith json_file ".json" = true →
      ∃ st, custom20BNJsonAdapter_init readFile json_file =
        Except.ok (JsonReaderKind.plainJson, st)) := by
  refine ⟨?_, ?_, ?_⟩
  · intro h1 h2
    simp only [custom20BNJsonAdapter_init, h1, h2, Bool.false_eq_true, if_false]
  · intro h2
    simp only [custom20BNJsonAdapter_init, h2, if_true]
    exact ⟨_, rfl⟩
  · intro h2 h1
    simp only [custom20BNJsonAdapter_init, h1, h2, Bool.false_eq_true, if_false, if_true]
    exact ⟨_, rfl⟩

/-- Concrete instance of `custom20BNJsonAdapter_init_extension_check` at the
three file names `labels.csv`, `data.json.gz` and `data.json`. -/
theorem custom20BNJsonAdapter_init_extension_check_witness :
    (custom20BNJsonAdapter_init (fun _ => []) "labels.csv" =
      Except.error "Wrong data file format (.json.gz or .json)") ∧
    (∃ st, custom20BNJsonAdapter_init (fun _ => []) "data.json.gz" =
      Except.ok (JsonReaderKind.gzipJson, st)) ∧
    (∃ st, custom20BNJsonAdapter_init (fun _ => []) "data.json" =
      Except.ok (JsonReaderKind.plainJson, st)) :=
  ⟨(custom20BNJsonAdapter_init_extension_check (fun _ => []) "labels.csv").1
      (by decide) (by decide),
   (custom20BNJsonAdapter_init_extension_check (fun _ => []) "data.json.gz").2.1
      (by decide),
   (custom20BNJsonAdapter_init_extension_check (fun _ => []) "data.json").2.2
      (by decide) (by decide)⟩

/-- The slash character. -/
def slashChar : Char := Char.ofNat 47

/-- Python `path.split('/')[-1]`, also `os.path.basename` for paths without a
trailing slash. -/
def pyBasename (p : String) : String :=
  String.mk ((splitOnChar slashChar p.data).getLastD [])

/-- Python `os.path.dirname`: everything before the last slash. -/
def pyDirname (p : String) : String :=
  String.mk (List.intercalate [slashChar] ((splitOnChar slashChar p.data).dropLast))

/-- One entry parsed by `ImageFolderAdapter.parse_folder` (`adapters.py`
line 274): image name, its directory's last component as label, and the
directory path. -/
structure FolderEntry where
  id : String
  label : String
  path : String
deriving DecidableEq, Repr

/-- Search pattern of `adapters.py` line 264:
`os.path.join(folder + "**/*{}".format(extension))` — a one-argument
`os.path.join`, i.e. plain concatenation. -/
def searchPatternFor (folder extension : String) : String :=
  folder ++ "**/*" ++ extension

/-- Loop of `adapters.py` lines 263-265: `paths` is rebound on every
iteration to the glob result of the current extension, so after the loop it
holds the last extension's result; with an empty extension list it was never
bound (`NameError`), modelled by `none`. The `glob.glob` collaborator is the
`glob` parameter. -/
def globLoopPaths (glob : String → List String) (folder : String)
    (file_extensions : List String) : Option (List String) :=
  file_extensions.foldl (fun _ e => some (glob (searchPatternFor folder e))) none

/-- `ImageFolderAdapter.parse_folder` (`adapters.py` lines 261-275):
`img_paths.extend(paths)` sits outside the loop, so the (initially empty)
`img_paths` receives only the last extension's glob result, which is then
sorted and turned into entries. -/
def parse_folder (glob : String → List String) (folder : String)
    (file_extensions : List String) : Option (List FolderEntry) :=
  (globLoopPaths glob folder file_extensions).map (fun paths =>
    let img_paths := List.insertionSort pyStrLe ([] ++ paths)
    img_paths.map (fun img_path =>
      let path := pyDirname img_path
      { id := pyBasename img_path, label := pyBasename path, path := path }))

/-- Folding a constant-overwrite step over a non-empty list keeps only the
last element's value. -/
theorem foldl_overwrite_last {α β : Type} (f : α → β) :
    ∀ (l : List α) (a : α), l.getLast? = some a → ∀ init : Option β,
      l.foldl (fun _ x => some (f x)) init = some (f a)
  | [], a, h, _ => by simp at h
  | [x], a, h, _ => by
      simp only [List.getLast?_singleton, Option.some.injEq] at h
      subst h
      rfl
  | x :: y :: ys, a, h, init => by
      rw [List.getLast?_cons_cons] at h
      rw [List.foldl_cons]
      exact foldl_overwrite_last f (y :: ys) a h _

/-- C10: with two or more configured file extensions, `parse_folder` produces
exactly the entries it would produce for the last extension alone — files
matching only earlier extensions contribute no entries, and hence neither the
adapter length, the label index nor the yielded records see them. -/
theorem parse_folder_last_extension_wins (glob : String → List String)
    (folder : String) (file_extensions : List String) (e : String)
    (h2 : 2 ≤ file_extensions.length)
    (hlast : file_extensions.getLast? = some e) :
    parse_folder glob folder file_extensions = parse_folder glob folder [e] := by
  have hl : globLoopPaths glob folder file_extensions =
      some (glob (searchPatternFor folder e)) :=
    foldl_overwrite_last _ file_extensions e hlast none
  have hr : globLoopPaths glob folder [e] =
      some (glob (searchPatternFor folder e)) := rfl
  simp only [parse_folder]
  rw [hl, hr]

/-- Fixture file system for the `parse_folder` witness: one `.jpg` under
`catA`, one `.png` under `catB`. -/
def globFixture (pat : String) : List String :=
  if pat = "root/**/*.jpg" then ["root/catA/1.jpg"]
  else if pat = "root/**/*.png" then ["root/catB/2.png"]
  else []

/-- Concrete instance of `parse_folder_last_extension_wins` at the extension
list `[.png, .jpg]`. -/
theorem parse_folder_last_extension_wins_witness :
    (2 ≤ ([".png", ".jpg"] : List String).length) ∧
    ([".png", ".jpg"] : List String).getLast? = some ".jpg" ∧
    parse_folder globFixture "root/" [".png", ".jpg"] =
      parse_folder globFixture "root/" [".jpg"] :=
  ⟨by decide, by decide,
   parse_folder_last_extension_wins globFixture "root/" [".png", ".jpg"] ".jpg"
     (by decide) (by decide)⟩
